import Mathlib

/-!
Shallow embedding of the moon-phase web service (`src/app.py`).

Real arithmetic from the Python source is embedded over `ℚ`; timestamps are
`Int` (seconds); the SQLAlchemy `User` table is a `List User`; the three Flask
endpoints become explicit state-passing functions `register`, `login` and
`get_moon_phase`; the `token_required` decorator becomes a guard function.
External collaborators (werkzeug password hashing, PyJWT string decoding,
the `ephem` ephemeris library) are parameters of the embedded operations,
mirroring that the source only observes their outputs.
-/

namespace MoonApp

/-- `SYNODIC_MONTH = 29.530588853` (src/app.py line 63). -/
def SYNODIC_MONTH : ℚ := 29.530588853

/-- `app.config SECRET_KEY='dev-key-123'` (src/app.py line 24). -/
def SECRET_KEY : String := "dev-key-123"

/-- The eight phase labels in the order the if/elif chain returns them. -/
def phaseLabels : List String :=
  ["New Moon", "Waxing Crescent", "First Quarter", "Waxing Gibbous",
   "Full Moon", "Waning Gibbous", "Last Quarter", "Waning Crescent"]

/-- `get_phase_name_from_age` (src/app.py lines 65-75): map moon age in days
to one of eight phase names via an if/elif chain of strict upper bounds. -/
def get_phase_name_from_age (age_days : ℚ) : String :=
  let fm := SYNODIC_MONTH
  if age_days < fm * 1/8 then "New Moon"
  else if age_days < fm * 2/8 then "Waxing Crescent"
  else if age_days < fm * 3/8 then "First Quarter"
  else if age_days < fm * 4/8 then "Waxing Gibbous"
  else if age_days < fm * 5/8 then "Full Moon"
  else if age_days < fm * 6/8 then "Waning Gibbous"
  else if age_days < fm * 7/8 then "Last Quarter"
  else "Waning Crescent"

/-- `offset = (1 - 2*illumination/100)*0.4` (src/app.py line 152). -/
def shadow_offset (illumination : ℚ) : ℚ := (1 - 2 * illumination / 100) * 0.4

/-- `shadow_x = 0.5 + offset if illumination <= 50 else 0.5 - offset`
(src/app.py line 154). -/
def shadow_x (illumination : ℚ) : ℚ :=
  if illumination ≤ 50 then 0.5 + shadow_offset illumination
  else 0.5 - shadow_offset illumination

/-- The geometric content of the rendered figure (src/app.py lines 146-158):
a white disk, a black shadow disk, on a black background.  The PNG raster
and base64 encoding are transport only and carry no further geometry. -/
structure MoonImage where
  disk_center : ℚ × ℚ
  disk_radius : ℚ
  shadow_center : ℚ × ℚ
  shadow_radius : ℚ
  background : String
deriving Repr, DecidableEq

/-- The figure drawn by `get_moon_phase` step 4 (src/app.py lines 146-158):
`plt.Circle((0.5,0.5), 0.4, color='white')` and
`plt.Circle((shadow_x, 0.5), 0.4, color='black')` on a black facecolor. -/
def renderMoon (illumination : ℚ) : MoonImage :=
  { disk_center := (0.5, 0.5)
    disk_radius := 0.4
    shadow_center := (shadow_x illumination, 0.5)
    shadow_radius := 0.4
    background := "black" }

/-- Python `round(x, 2)`: round half to even at two decimals
(src/app.py line 171). -/
def pyRound2 (x : ℚ) : ℚ :=
  let y := x * 100
  let f := ⌊y⌋
  let r := y - f
  let n : ℤ :=
    if r < 1/2 then f
    else if 1/2 < r then f + 1
    else if f % 2 = 0 then f else f + 1
  (n : ℚ) / 100

/-- A row of the `User` table (src/app.py lines 30-36).  `password` stores
whatever string the endpoint writes there (the werkzeug hash); `created_at`
and `last_login` are timestamps; `calculations` defaults to 0. -/
structure User where
  username : String
  password : String
  created_at : Int
  last_login : Option Int
  calculations : Nat
deriving Repr, DecidableEq

/-- The persisted account store: the rows of the `User` table in insertion
order (SQLite autoincrement order). -/
abbrev DB := List User

/-- First row whose `username` column equals `x`:
`User.query.filter_by(username=x).first()`. -/
def findUser (db : DB) (x : String) : Option User :=
  db.find? (·.username == x)

/-- The stored `calculations` counter of account `x`, if the account exists. -/
def calcOf (db : DB) (x : String) : Option Nat :=
  (findUser db x).map (·.calculations)

/-- A decoded HS256 token as PyJWT sees it: the claims `{username, exp}`
(src/app.py lines 110-113) plus the secret that produced the signature
(`secret` models which key the token was signed with, not a payload field). -/
structure Token where
  username : String
  exp : Int
  secret : String
deriving Repr, DecidableEq

/-- Outcome of `jwt.decode(token, key, algorithms=["HS256"])`. -/
inductive DecodeResult where
  | ok (username : String)
  | expired
  | invalid
deriving Repr, DecidableEq

/-- `jwt.decode` semantics: a signature made with a different key raises
`InvalidTokenError`; a good signature with `exp` in the past raises
`ExpiredSignatureError`; otherwise the claims are returned. -/
def jwt_decode (tok : Token) (key : String) (now : Int) : DecodeResult :=
  if tok.secret ≠ key then .invalid
  else if tok.exp ≤ now then .expired
  else .ok tok.username

/-- Drop leading whitespace characters from a character list. -/
def dropLeadingWS : List Char → List Char
  | [] => []
  | c :: cs => if c.isWhitespace then dropLeadingWS cs else c :: cs

/-- Python `str.strip()` with no argument: remove leading and trailing
whitespace (src/app.py lines 81 and 97). -/
def pyStrip (s : String) : String :=
  ⟨(dropLeadingWS ((dropLeadingWS s.data).reverse)).reverse⟩

/-- Accumulator pass behind `pySplit`: `acc` holds the current word
reversed. -/
def wordsAux : List Char → List Char → List String
  | [], acc => if acc = [] then [] else [String.mk acc.reverse]
  | c :: cs, acc =>
    if c.isWhitespace then
      if acc = [] then wordsAux cs []
      else String.mk acc.reverse :: wordsAux cs []
    else wordsAux cs (c :: acc)

/-- Python `str.split()` with no argument: split on runs of whitespace,
discarding empty fields (src/app.py line 43). -/
def pySplit (s : String) : List String := wordsAux s.data []

/-- Python `str.lower()` on the ASCII range, as used on the header scheme
word (src/app.py line 44). -/
def pyLower (s : String) : String := ⟨s.data.map Char.toLower⟩

/-- Result of the `token_required` guard: either the authenticated `User`
row passed to the wrapped handler, or a 401 message. -/
inductive AuthResult where
  | ok (user : User)
  | err (message : String)
deriving Repr, DecidableEq

/-- `token_required` (src/app.py lines 39-60).  `interp` is how PyJWT parses
the raw token string into a signed-token value (`none` = not a JWT at all,
raising `DecodeError ⊂ InvalidTokenError`). -/
def token_required (interp : String → Option Token) (db : DB)
    (authHeader : String) (now : Int) : AuthResult :=
  let parts := pySplit authHeader
  if parts.length ≠ 2 ∨ pyLower (parts.getD 0 "") ≠ "bearer" then
    .err "Invalid or missing Authorization header"
  else
    match interp (parts.getD 1 "") with
    | none => .err "Invalid token"
    | some tok =>
      match jwt_decode tok SECRET_KEY now with
      | .expired => .err "Token has expired"
      | .invalid => .err "Invalid token"
      | .ok uname =>
        match findUser db uname with
        | none => .err "User not found"
        | some user => .ok user

/-- 24 hours, in seconds: `timedelta(hours=24)` (src/app.py line 112). -/
def TOKEN_LIFETIME : Int := 24 * 60 * 60

/-- An HTTP response of one of the three endpoints. -/
inductive Resp where
  | reg_ok
  | err (code : Nat) (message : String)
  | login_ok (token : Token) (username : String) (calculations : Nat)
      (last_login : Int)
  | phase_ok (phase_name : String) (illumination : ℚ) (moon_image : MoonImage)
      (calculations : Nat)
deriving Repr, DecidableEq

/-- `/register` (src/app.py lines 78-92).  `hash` is werkzeug's
`generate_password_hash`.  A missing JSON field defaults to `''`. -/
def register (hash : String → String) (db : DB)
    (usernameRaw pwd : String) (now : Int) : Resp × DB :=
  let usern := pyStrip usernameRaw
  if usern = "" ∨ pwd = "" then
    (.err 400 "Missing username or password", db)
  else if (findUser db usern).isSome then
    (.err 400 "Username already exists", db)
  else
    (.reg_ok, db ++ [{ username := usern, password := hash pwd,
                       created_at := now, last_login := none,
                       calculations := 0 }])

/-- `/login` (src/app.py lines 94-120).  `check` is werkzeug's
`check_password_hash`. -/
def login (check : String → String → Bool) (db : DB)
    (usernameRaw pwd : String) (now : Int) : Resp × DB :=
  let usern := pyStrip usernameRaw
  if usern = "" ∨ pwd = "" then
    (.err 400 "Missing username or password", db)
  else
    match findUser db usern with
    | none => (.err 401 "Invalid credentials", db)
    | some usr =>
      if check usr.password pwd then
        let usr' := { usr with last_login := some now }
        let db' := db.map (fun v => if v.username == usern then usr' else v)
        (.login_ok { username := usr.username, exp := now + TOKEN_LIFETIME,
                     secret := SECRET_KEY }
           usr.username usr.calculations now, db')
      else (.err 401 "Invalid credentials", db)

/-- The external collaborators `get_moon_phase` observes: PyJWT string
parsing and the `ephem` library (date parsing, `Moon().phase`,
`previous_new_moon`). -/
structure Sys where
  hash : String → String
  check : String → String → Bool
  interp : String → Option Token
  parseDate : String → Option ℚ
  illumOf : ℚ → ℚ
  prevNewMoon : ℚ → ℚ

/-- `/get-moon-phase` (src/app.py lines 122-174), guard included. -/
def get_moon_phase (S : Sys) (db : DB)
    (authHeader dateStr : String) (now : Int) : Resp × DB :=
  match token_required S.interp db authHeader now with
  | .err m => (.err 401 m, db)
  | .ok current_user =>
    if dateStr = "" then (.err 400 "Date is required", db)
    else
      match S.parseDate dateStr with
      | none => (.err 400 "Invalid date format; use YYYY-MM-DD", db)
      | some e_date =>
        let illumination := S.illumOf e_date
        let age_days := e_date - S.prevNewMoon e_date
        let img := renderMoon illumination
        let newCount := current_user.calculations + 1
        let u' := { current_user with calculations := newCount }
        let db' := db.map
          (fun v => if v.username == current_user.username then u' else v)
        (.phase_ok (get_phase_name_from_age age_days)
           (pyRound2 illumination) img newCount, db')

/-- One client request against the service. -/
inductive Op where
  | register (username pwd : String) (now : Int)
  | login (username pwd : String) (now : Int)
  | moonphase (authHeader dateStr : String) (now : Int)

/-- Dispatch one request. -/
def step (S : Sys) (db : DB) : Op → Resp × DB
  | .register u p now => register S.hash db u p now
  | .login u p now => login S.check db u p now
  | .moonphase h d now => get_moon_phase S db h d now

/-- The account store after a sequence of requests. -/
def run (S : Sys) (db : DB) : List Op → DB
  | [] => db
  | op :: ops => run S (step S db op).2 ops

end MoonApp

namespace MoonApp

/-- Concrete collaborators used to instantiate theorems at closed inputs:
a toy invertible hash, an exact-match checker, one known token string and
one known date. -/
def S₀ : Sys :=
  { hash := fun s => String.append "pbkdf2:" s
    check := fun h p => h == String.append "pbkdf2:" p
    interp := fun s =>
      if s = "tok-alice" then some { username := "alice", exp := 100,
                                     secret := SECRET_KEY } else none
    parseDate := fun s => if s = "2024-01-11" then some 45301 else none
    illumOf := fun _ => 3/2
    prevNewMoon := fun e => e - 1 }

/-- One-account store used to instantiate theorems at closed inputs. -/
def db₀ : DB :=
  [{ username := "alice", password := "pbkdf2:pw1", created_at := 0,
     last_login := none, calculations := 0 }]

/-- Store `db₀` after alice's first successful phase computation. -/
def db₁ : DB :=
  [{ username := "alice", password := "pbkdf2:pw1", created_at := 0,
     last_login := none, calculations := 1 }]

/-- The stored `last_login` column of account `x`, if the account exists. -/
def lastLoginOf (db : DB) (x : String) : Option (Option Int) :=
  (findUser db x).map (·.last_login)

end MoonApp

namespace MoonApp

lemma phase_bucket_floor :
    ∀ age : ℚ, 0 ≤ age → age < SYNODIC_MONTH →
      get_phase_name_from_age age
        = phaseLabels.getD (⌊age / (SYNODIC_MONTH / 8)⌋).toNat "" := by
  intro age h0 hfm
  have hpos : (0:ℚ) < SYNODIC_MONTH / 8 := by norm_num [SYNODIC_MONTH]
  simp only [get_phase_name_from_age]
  split_ifs with h1 h2 h3 h4 h5 h6 h7
  · have hf : ⌊age / (SYNODIC_MONTH / 8)⌋ = 0 := by
      rw [Int.floor_eq_iff]
      refine ⟨by rw [le_div_iff₀ hpos]; push_cast; linarith,
              by rw [div_lt_iff₀ hpos]; push_cast; linarith⟩
    rw [hf]; rfl
  · have hf : ⌊age / (SYNODIC_MONTH / 8)⌋ = 1 := by
      rw [Int.floor_eq_iff]
      refine ⟨by rw [le_div_iff₀ hpos]; push_cast; linarith,
              by rw [div_lt_iff₀ hpos]; push_cast; linarith⟩
    rw [hf]; rfl
  · have hf : ⌊age / (SYNODIC_MONTH / 8)⌋ = 2 := by
      rw [Int.floor_eq_iff]
      refine ⟨by rw [le_div_iff₀ hpos]; push_cast; linarith,
              by rw [div_lt_iff₀ hpos]; push_cast; linarith⟩
    rw [hf]; rfl
  · have hf : ⌊age / (SYNODIC_MONTH / 8)⌋ = 3 := by
      rw [Int.floor_eq_iff]
      refine ⟨by rw [le_div_iff₀ hpos]; push_cast; linarith,
              by rw [div_lt_iff₀ hpos]; push_cast; linarith⟩
    rw [hf]; rfl
  · have hf : ⌊age / (SYNODIC_MONTH / 8)⌋ = 4 := by
      rw [Int.floor_eq_iff]
      refine ⟨by rw [le_div_iff₀ hpos]; push_cast; linarith,
              by rw [div_lt_iff₀ hpos]; push_cast; linarith⟩
    rw [hf]; rfl
  · have hf : ⌊age / (SYNODIC_MONTH / 8)⌋ = 5 := by
      rw [Int.floor_eq_iff]
      refine ⟨by rw [le_div_iff₀ hpos]; push_cast; linarith,
              by rw [div_lt_iff₀ hpos]; push_cast; linarith⟩
    rw [hf]; rfl
  · have hf : ⌊age / (SYNODIC_MONTH / 8)⌋ = 6 := by
      rw [Int.floor_eq_iff]
      refine ⟨by rw [le_div_iff₀ hpos]; push_cast; linarith,
              by rw [div_lt_iff₀ hpos]; push_cast; linarith⟩
    rw [hf]; rfl
  · have hf : ⌊age / (SYNODIC_MONTH / 8)⌋ = 7 := by
      rw [Int.floor_eq_iff]
      refine ⟨by rw [le_div_iff₀ hpos]; push_cast; linarith,
              by rw [div_lt_iff₀ hpos]; push_cast; linarith⟩
    rw [hf]; rfl

lemma phase_bucket_boundary :
    ∀ k : ℕ, 1 ≤ k → k ≤ 7 →
      get_phase_name_from_age (k * (SYNODIC_MONTH / 8)) = phaseLabels.getD k ""
      ∧ ∀ ε : ℚ, 0 < ε → ε ≤ SYNODIC_MONTH / 8 →
          get_phase_name_from_age (k * (SYNODIC_MONTH / 8) - ε)
            = phaseLabels.getD (k - 1) "" := by
  intro k hk1 hk7
  have hpos : (0:ℚ) < SYNODIC_MONTH / 8 := by norm_num [SYNODIC_MONTH]
  have hfm : (0:ℚ) < SYNODIC_MONTH := by norm_num [SYNODIC_MONTH]
  have hk1' : (1:ℚ) ≤ (k:ℚ) := by exact_mod_cast hk1
  have hk7' : (k:ℚ) ≤ 7 := by exact_mod_cast hk7
  have hlo : 1 * (SYNODIC_MONTH / 8) ≤ (k:ℚ) * (SYNODIC_MONTH / 8) :=
    mul_le_mul_of_nonneg_right hk1' hpos.le
  have hhi : (k:ℚ) * (SYNODIC_MONTH / 8) ≤ 7 * (SYNODIC_MONTH / 8) :=
    mul_le_mul_of_nonneg_right hk7' hpos.le
  constructor
  · rw [phase_bucket_floor _ (by linarith) (by linarith)]
    have hf : ⌊(k:ℚ) * (SYNODIC_MONTH / 8) / (SYNODIC_MONTH / 8)⌋ = (k:ℤ) := by
      rw [mul_div_assoc, div_self hpos.ne', mul_one, Int.floor_natCast]
    rw [hf, Int.toNat_natCast]
  · intro ε hε0 hε1
    rw [phase_bucket_floor _ (by linarith) (by linarith)]
    have hf : ⌊((k:ℚ) * (SYNODIC_MONTH / 8) - ε) / (SYNODIC_MONTH / 8)⌋
        = (k:ℤ) - 1 := by
      rw [Int.floor_eq_iff]
      refine ⟨by rw [le_div_iff₀ hpos]; push_cast; linarith,
              by rw [div_lt_iff₀ hpos]; push_cast; linarith⟩
    rw [hf]
    congr 1
    omega

lemma findUser_append_left {db : DB} {x : String} {u : User} (l : DB)
    (h : findUser db x = some u) : findUser (db ++ l) x = some u := by
  simp only [findUser] at h ⊢
  rw [List.find?_append, h, Option.or]

lemma findUser_some_username {db : DB} {x : String} {u : User}
    (h : findUser db x = some u) : u.username = x := by
  have := List.find?_some h
  simpa using this

lemma findUser_map_pres {db : DB} {x : String} (f : User → User)
    (hf : ∀ v, (f v).username = v.username) :
    findUser (db.map f) x = (findUser db x).map f := by
  simp only [findUser, List.find?_map]
  have hp : ((fun v : User => v.username == x) ∘ f)
      = (fun v : User => v.username == x) := by
    funext v
    simp [Function.comp, hf]
  rw [hp]

lemma token_required_ok_find {interp : String → Option Token} {db : DB}
    {hdr : String} {now : Int} {u : User}
    (h : token_required interp db hdr now = .ok u) :
    findUser db u.username = some u := by
  simp only [token_required] at h
  split at h
  · simp at h
  · split at h
    · simp at h
    · rename_i tok hitok
      split at h
      · simp at h
      · simp at h
      · rename_i uname hdec
        split at h
        · simp at h
        · rename_i user hfind
          obtain rfl : user = u := by simpa using h
          rw [findUser_some_username hfind]
          exact hfind

lemma calcOf_map_update {db : DB} {x tname : String} {w t : User} (t' : User)
    (hw : findUser db x = some w) (ht : findUser db tname = some t)
    (ht' : t'.username = t.username) :
    calcOf (db.map (fun v => if v.username == tname then t' else v)) x
      = some (if w.username == tname then t'.calculations
              else w.calculations) := by
  have htn : t.username = tname := findUser_some_username ht
  have hf : ∀ v : User,
      ((fun v : User => if v.username == tname then t' else v) v).username
        = v.username := by
    intro v
    dsimp only
    split
    · rename_i hv
      rw [ht', htn]
      exact (eq_of_beq hv).symm
    · rfl
  simp only [calcOf, findUser_map_pres _ hf, hw, Option.map_some']
  congr 1
  exact apply_ite User.calculations _ _ _

lemma get_moon_phase_db (S : Sys) (db : DB) (hdr d : String) (now : Int) :
    (get_moon_phase S db hdr d now).2 = db
    ∨ ∃ cu, token_required S.interp db hdr now = .ok cu ∧
        (get_moon_phase S db hdr d now).2
          = db.map (fun v => if v.username == cu.username
              then { cu with calculations := cu.calculations + 1 } else v) := by
  simp only [get_moon_phase]
  cases htr : token_required S.interp db hdr now with
  | err m => simp
  | ok cu =>
    simp only
    split_ifs with hd
    · simp
    · cases hp : S.parseDate d with
      | none => simp
      | some e => exact Or.inr ⟨cu, rfl, rfl⟩

lemma calcOf_step_mono (S : Sys) (db : DB) (op : Op) (x : String) (n : ℕ)
    (h : calcOf db x = some n) :
    ∃ n', calcOf (step S db op).2 x = some n' ∧ n ≤ n' := by
  obtain ⟨w, hw, hwc⟩ : ∃ w, findUser db x = some w ∧ w.calculations = n := by
    simpa only [calcOf, Option.map_eq_some'] using h
  cases op with
  | register un p now =>
    simp only [step, register]
    split_ifs with h1 h2
    · exact ⟨n, h, le_refl n⟩
    · exact ⟨n, h, le_refl n⟩
    · refine ⟨n, ?_, le_refl n⟩
      simp only [calcOf]
      rw [findUser_append_left _ hw]
      simp [hwc]
  | login un p now =>
    by_cases h1 : pyStrip un = "" ∨ p = ""
    · simp only [step, login, if_pos h1]
      exact ⟨n, h, le_refl n⟩
    · cases hfind : findUser db (pyStrip un) with
      | none =>
        simp only [step, login, if_neg h1, hfind]
        exact ⟨n, h, le_refl n⟩
      | some usr =>
        by_cases hchk : S.check usr.password p
        · simp only [step, login, if_neg h1, hfind, if_pos hchk]
          refine ⟨n, ?_, le_refl n⟩
          rw [calcOf_map_update { usr with last_login := some now } hw hfind
            rfl]
          split
          · rename_i hbeq
            have hx : x = pyStrip un := by
              rw [← findUser_some_username hw]
              exact eq_of_beq hbeq
            rw [hx] at hw
            rw [hw] at hfind
            obtain rfl : usr = w := by
              injection hfind with h'
              exact h'.symm
            simp [hwc]
          · simp [hwc]
        · simp only [step, login, if_neg h1, hfind, if_neg hchk]
          exact ⟨n, h, le_refl n⟩
  | moonphase hdr d now =>
    rcases get_moon_phase_db S db hdr d now with hdb | ⟨cu, htr, hdb⟩
    · simp only [step]
      rw [hdb]
      exact ⟨n, h, le_refl n⟩
    · have hcu : findUser db cu.username = some cu := token_required_ok_find htr
      simp only [step]
      rw [hdb, calcOf_map_update { cu with calculations := cu.calculations + 1 }
        hw hcu rfl]
      refine ⟨if w.username == cu.username then cu.calculations + 1
              else w.calculations, rfl, ?_⟩
      split
      · rename_i hbeq
        have hx : x = cu.username := by
          rw [← findUser_some_username hw]
          exact eq_of_beq hbeq
        rw [hx] at hw
        rw [hw] at hcu
        obtain rfl : cu = w := by
          injection hcu with h'
          exact h'.symm
        omega
      · omega

lemma calcOf_run_mono (S : Sys) (db : DB) (ops : List Op) (x : String) (n : ℕ)
    (h : calcOf db x = some n) :
    ∃ n', calcOf (run S db ops) x = some n' ∧ n ≤ n' := by
  induction ops generalizing db n with
  | nil => exact ⟨n, h, le_refl n⟩
  | cons op ops ih =>
    obtain ⟨m, hm, hnm⟩ := calcOf_step_mono S db op x n h
    obtain ⟨n', hn', hmn'⟩ := ih (step S db op).2 m hm
    exact ⟨n', hn', le_trans hnm hmn'⟩

lemma get_moon_phase_success {S : Sys} {db : DB} {hdr d : String} {now : Int}
    {name : String} {il : ℚ} {img : MoonImage} {c : ℕ} {db' : DB}
    (h : get_moon_phase S db hdr d now = (.phase_ok name il img c, db')) :
    ∃ cu, token_required S.interp db hdr now = .ok cu
      ∧ calcOf db cu.username = some cu.calculations
      ∧ c = cu.calculations + 1
      ∧ calcOf db' cu.username = some (cu.calculations + 1) := by
  simp only [get_moon_phase] at h
  cases htr : token_required S.interp db hdr now with
  | err m => rw [htr] at h; simp at h
  | ok cu =>
    rw [htr] at h
    simp only at h
    split_ifs at h with hd
    · simp at h
    · cases hp : S.parseDate d with
      | none => rw [hp] at h; simp at h
      | some e =>
        rw [hp] at h
        simp only [Prod.mk.injEq, Resp.phase_ok.injEq] at h
        obtain ⟨⟨hn, hi, hm, hc⟩, hdb⟩ := h
        have hcu : findUser db cu.username = some cu := token_required_ok_find htr
        refine ⟨cu, rfl, by simp [calcOf, hcu], hc.symm, ?_⟩
        rw [← hdb, calcOf_map_update
          { cu with calculations := cu.calculations + 1 } hcu hcu rfl]
        simp

lemma get_moon_phase_err {S : Sys} {db : DB} {hdr d : String} {now : Int}
    {code : ℕ} {msg : String} {db' : DB}
    (h : get_moon_phase S db hdr d now = (.err code msg, db')) : db' = db := by
  simp only [get_moon_phase] at h
  cases htr : token_required S.interp db hdr now with
  | err m =>
    rw [htr] at h
    simp only [Prod.mk.injEq] at h
    exact h.2.symm
  | ok cu =>
    rw [htr] at h
    simp only at h
    split_ifs at h with hd
    · simp only [Prod.mk.injEq] at h
      exact h.2.symm
    · cases hp : S.parseDate d with
      | none =>
        rw [hp] at h
        simp only [Prod.mk.injEq] at h
        exact h.2.symm
      | some e =>
        rw [hp] at h
        simp only [Prod.mk.injEq] at h
        exact absurd h.1 (by simp)

lemma findUser_isSome_step (S : Sys) (db : DB) (op : Op) (x : String)
    (h : (findUser db x).isSome) : (findUser (step S db op).2 x).isSome := by
  rw [Option.isSome_iff_exists] at h
  obtain ⟨w, hw⟩ := h
  obtain ⟨n', hn', -⟩ := calcOf_step_mono S db op x w.calculations
    (by simp [calcOf, hw])
  simp only [calcOf, Option.map_eq_some'] at hn'
  obtain ⟨u, hu, -⟩ := hn'
  simp [hu]

lemma moonphase_eval₀ : get_moon_phase S₀ db₀ "Bearer tok-alice" "2024-01-11" 0
    = (.phase_ok "New Moon" (pyRound2 (3/2)) (renderMoon (3/2)) 1, db₁) := by
  have hsplit : pySplit "Bearer tok-alice" = ["Bearer", "tok-alice"] := by decide
  have hlow : pyLower "Bearer" = "bearer" := by decide
  have hage : (45301 : ℚ) - (45301 - 1) = 1 := by norm_num
  have hphase : get_phase_name_from_age ((45301 : ℚ) - (45301 - 1))
      = "New Moon" := by
    rw [hage]
    norm_num [get_phase_name_from_age, SYNODIC_MONTH]
  have hphase1 : get_phase_name_from_age 1 = "New Moon" := by
    norm_num [get_phase_name_from_age, SYNODIC_MONTH]
  simp only [get_moon_phase, token_required, hsplit, S₀, db₀, db₁, jwt_decode,
    findUser, SECRET_KEY, hlow, hphase]
  norm_num [List.find?, db₁, db₀, hlow, hphase1]
  decide

end MoonApp

namespace MoonApp

/-- C1: on [0, SYNODIC_MONTH), `get_phase_name_from_age` returns the label at
index `floor(age / (SYNODIC_MONTH/8))` of the fixed eight-label order; the
buckets are half-open with inclusive lower bound, so age 0 gives "New Moon",
age SYNODIC_MONTH/2 gives "Full Moon", an input exactly at a boundary
`k * (SYNODIC_MONTH/8)` (1 ≤ k ≤ 7) falls in bucket k, and an input just
below it stays in bucket k-1. -/
theorem C1_phase_bucket :
    (∀ age : ℚ, 0 ≤ age → age < SYNODIC_MONTH →
      get_phase_name_from_age age
        = phaseLabels.getD (⌊age / (SYNODIC_MONTH / 8)⌋).toNat "")
    ∧ get_phase_name_from_age 0 = "New Moon"
    ∧ get_phase_name_from_age (SYNODIC_MONTH / 2) = "Full Moon"
    ∧ ∀ k : ℕ, 1 ≤ k → k ≤ 7 →
        get_phase_name_from_age (k * (SYNODIC_MONTH / 8))
          = phaseLabels.getD k ""
        ∧ ∀ ε : ℚ, 0 < ε → ε ≤ SYNODIC_MONTH / 8 →
            get_phase_name_from_age (k * (SYNODIC_MONTH / 8) - ε)
              = phaseLabels.getD (k - 1) "" :=
  ⟨phase_bucket_floor,
   by norm_num [get_phase_name_from_age, SYNODIC_MONTH],
   by norm_num [get_phase_name_from_age, SYNODIC_MONTH],
   phase_bucket_boundary⟩

/-- Closed instantiation of C1 at age 16 days. -/
theorem C1_phase_bucket_witness :
    get_phase_name_from_age 16
      = phaseLabels.getD (⌊(16:ℚ) / (SYNODIC_MONTH / 8)⌋).toNat "" :=
  C1_phase_bucket.1 16 (by norm_num) (by norm_num [SYNODIC_MONTH])

/-- C2: for every illumination in [0,100] the shadow offset equals
`(1 - 2*illumination/100) * 0.4`; illumination 0 gives +0.4, illumination 100
gives -0.4, illumination 50 gives 0, and at illumination 50 the shadow
circle's center x-coordinate is exactly 0.5 under either direction branch. -/
theorem C2_shadow_offset :
    (∀ illumination : ℚ, 0 ≤ illumination → illumination ≤ 100 →
        shadow_offset illumination = (1 - 2 * illumination / 100) * 0.4)
    ∧ shadow_offset 0 = 0.4 ∧ shadow_offset 100 = -0.4 ∧ shadow_offset 50 = 0
    ∧ (renderMoon 50).shadow_center.1 = 0.5
    ∧ shadow_x 50 = 0.5 + shadow_offset 50
    ∧ shadow_x 50 = 0.5 - shadow_offset 50 := by
  refine ⟨fun i _ _ => rfl, by norm_num [shadow_offset],
    by norm_num [shadow_offset], by norm_num [shadow_offset], ?_, ?_, ?_⟩ <;>
    norm_num [renderMoon, shadow_x, shadow_offset]

/-- Closed instantiation of C2 at illumination 30. -/
theorem C2_shadow_offset_witness :
    shadow_offset 30 = (1 - 2 * 30 / 100) * 0.4 :=
  C2_shadow_offset.1 30 (by norm_num) (by norm_num)

/-- C3: for every illumination in [0,100] the lit disk is centered at
(0.5, 0.5) with radius 0.4, and the shadow circle's center x-coordinate is
`0.5 + offset` when illumination ≤ 50 and `0.5 - offset` when
illumination > 50. -/
theorem C3_shadow_direction :
    ∀ illumination : ℚ, 0 ≤ illumination → illumination ≤ 100 →
      (renderMoon illumination).disk_center = (0.5, 0.5)
      ∧ (renderMoon illumination).disk_radius = 0.4
      ∧ (illumination ≤ 50 →
          (renderMoon illumination).shadow_center.1
            = 0.5 + shadow_offset illumination)
      ∧ (50 < illumination →
          (renderMoon illumination).shadow_center.1
            = 0.5 - shadow_offset illumination) := by
  intro i h0 h100
  refine ⟨rfl, rfl, fun h => ?_, fun h => ?_⟩
  · simp [renderMoon, shadow_x, h]
  · simp [renderMoon, shadow_x, not_le.mpr h]

/-- Closed instantiation of C3 at illumination 80. -/
theorem C3_shadow_direction_witness :
    (renderMoon 80).disk_center = (0.5, 0.5)
    ∧ (renderMoon 80).disk_radius = 0.4
    ∧ ((80:ℚ) ≤ 50 →
        (renderMoon 80).shadow_center.1 = 0.5 + shadow_offset 80)
    ∧ ((50:ℚ) < 80 →
        (renderMoon 80).shadow_center.1 = 0.5 - shadow_offset 80) :=
  C3_shadow_direction 80 (by norm_num) (by norm_num)

/-- C4: the stored calculations counter of every account is monotonically
non-decreasing across any sequence of register, login and get-moon-phase
requests; each successful get-moon-phase increments the requesting account's
stored counter by exactly 1, and the response's calculations field equals the
stored counter after that increment. -/
theorem C4_calculations_counter :
    (∀ (S : Sys) (db : DB) (ops : List Op) (x : String) (n : ℕ),
        calcOf db x = some n →
        ∃ n', calcOf (run S db ops) x = some n' ∧ n ≤ n')
    ∧ ∀ (S : Sys) (db : DB) (hdr d : String) (now : Int) (name : String)
        (il : ℚ) (img : MoonImage) (c : ℕ) (db' : DB),
        get_moon_phase S db hdr d now = (.phase_ok name il img c, db') →
        ∃ cu, token_required S.interp db hdr now = .ok cu
          ∧ calcOf db cu.username = some cu.calculations
          ∧ c = cu.calculations + 1
          ∧ calcOf db' cu.username = some (cu.calculations + 1) :=
  ⟨calcOf_run_mono,
   fun _ _ _ _ _ _ _ _ _ _ h => get_moon_phase_success h⟩

/-- Closed instantiation of C4: alice's first successful phase request on
`db₀` yields response counter 1 and stored counter 1. -/
theorem C4_calculations_counter_witness :
    ∃ cu, token_required S₀.interp db₀ "Bearer tok-alice" 0 = .ok cu
      ∧ calcOf db₀ cu.username = some cu.calculations
      ∧ 1 = cu.calculations + 1
      ∧ calcOf db₁ cu.username = some (cu.calculations + 1) :=
  C4_calculations_counter.2 S₀ db₀ "Bearer tok-alice" "2024-01-11" 0
    "New Moon" (pyRound2 (3/2)) (renderMoon (3/2)) 1 db₁ moonphase_eval₀

/-- C5: whenever get-moon-phase returns an error response (400 for a
missing or unparseable date, or any 401 from the authentication guard), the
account store is left exactly as it was; in particular every account's
calculations counter and last_login are unchanged. -/
theorem C5_error_leaves_state :
    ∀ (S : Sys) (db : DB) (hdr d : String) (now : Int) (code : ℕ)
      (msg : String) (db' : DB),
      get_moon_phase S db hdr d now = (.err code msg, db') →
      db' = db ∧ (∀ x, calcOf db' x = calcOf db x)
      ∧ ∀ x, lastLoginOf db' x = lastLoginOf db x := by
  intro S db hdr d now code msg db' h
  obtain rfl : db' = db := get_moon_phase_err h
  exact ⟨rfl, fun _ => rfl, fun _ => rfl⟩

/-- Closed instantiation of C5 at a malformed Authorization header. -/
theorem C5_error_leaves_state_witness :
    (get_moon_phase S₀ db₀ "garbage" "" 0).2 = db₀
    ∧ (∀ x, calcOf (get_moon_phase S₀ db₀ "garbage" "" 0).2 x = calcOf db₀ x)
    ∧ ∀ x, lastLoginOf (get_moon_phase S₀ db₀ "garbage" "" 0).2 x
        = lastLoginOf db₀ x :=
  C5_error_leaves_state S₀ db₀ "garbage" "" 0 401
    "Invalid or missing Authorization header"
    (get_moon_phase S₀ db₀ "garbage" "" 0).2 (by decide)

/-- C6: the token_required guard answers 401 with a distinct message in each
of the four cases — (a) missing/malformed Authorization header (not exactly
two whitespace-separated parts with first part "bearer" case-insensitively),
(b) valid signature but expired token, (c) otherwise-invalid token,
(d) valid token naming no stored account — and the wrapped handler receives
a user exactly when a validly signed, unexpired token names an existing
account. -/
theorem C6_auth_guard :
    ∀ (interp : String → Option Token) (db : DB) (auth : String) (now : Int),
      (((pySplit auth).length ≠ 2
          ∨ pyLower ((pySplit auth).getD 0 "") ≠ "bearer") →
        token_required interp db auth now
          = .err "Invalid or missing Authorization header")
      ∧ (∀ p1 p2, pySplit auth = [p1, p2] → pyLower p1 = "bearer" →
          (interp p2 = none →
            token_required interp db auth now = .err "Invalid token")
          ∧ (∀ tok, interp p2 = some tok →
              (tok.secret ≠ SECRET_KEY →
                token_required interp db auth now = .err "Invalid token")
              ∧ (tok.secret = SECRET_KEY → tok.exp ≤ now →
                token_required interp db auth now = .err "Token has expired")
              ∧ (tok.secret = SECRET_KEY → now < tok.exp →
                  (findUser db tok.username = none →
                    token_required interp db auth now = .err "User not found")
                  ∧ (∀ u, findUser db tok.username = some u →
                    token_required interp db auth now = .ok u))))
      ∧ (∀ u, token_required interp db auth now = .ok u →
          ∃ p1 p2 tok, pySplit auth = [p1, p2] ∧ pyLower p1 = "bearer"
            ∧ interp p2 = some tok ∧ tok.secret = SECRET_KEY ∧ now < tok.exp
            ∧ findUser db tok.username = some u)
      ∧ ["Invalid or missing Authorization header", "Token has expired",
         "Invalid token", "User not found"].Pairwise (· ≠ ·) := by
  intro interp db auth now
  refine ⟨?_, ?_, ?_, by decide⟩
  · intro h
    simp only [token_required]
    rw [if_pos h]
  · intro p1 p2 hparts hbearer
    have hcond : ¬([p1, p2].length ≠ 2
        ∨ pyLower ([p1, p2].getD 0 "") ≠ "bearer") := by
      simp [hbearer]
    have hgd : [p1, p2].getD 1 "" = p2 := rfl
    constructor
    · intro hnone
      simp only [token_required, hparts]
      rw [if_neg hcond, hgd, hnone]
    · intro tok hitok
      refine ⟨?_, ?_, ?_⟩
      · intro hsec
        simp only [token_required, hparts]
        rw [if_neg hcond, hgd, hitok]
        simp only [jwt_decode, if_pos hsec]
      · intro hsec hexp
        simp only [token_required, hparts]
        rw [if_neg hcond, hgd, hitok]
        simp only [jwt_decode, hsec, ne_eq, not_true_eq_false, if_false,
          if_pos hexp]
      · intro hsec hexp
        have hdec : jwt_decode tok SECRET_KEY now = .ok tok.username := by
          simp only [jwt_decode, hsec, ne_eq, not_true_eq_false, if_false,
            if_neg (not_le.mpr hexp)]
        constructor
        · intro hfind
          simp only [token_required, hparts]
          rw [if_neg hcond, hgd, hitok]
          dsimp only
          rw [hdec]
          dsimp only
          rw [hfind]
        · intro u hfind
          simp only [token_required, hparts]
          rw [if_neg hcond, hgd, hitok]
          dsimp only
          rw [hdec]
          dsimp only
          rw [hfind]
  · intro u h
    simp only [token_required] at h
    split at h
    · simp at h
    · rename_i hcond
      push_neg at hcond
      obtain ⟨hlen, hbear⟩ := hcond
      obtain ⟨p1, p2, hparts⟩ := List.length_eq_two.mp hlen
      rw [hparts] at hbear h ⊢
      split at h
      · simp at h
      · rename_i tok hitok
        split at h
        · simp at h
        · simp at h
        · rename_i uname hdec
          split at h
          · simp at h
          · rename_i user hfind
            obtain rfl : user = u := by simpa using h
            have hsec : tok.secret = SECRET_KEY ∧ now < tok.exp
                ∧ uname = tok.username := by
              simp only [jwt_decode] at hdec
              split_ifs at hdec with hs he
              refine ⟨not_not.mp hs, not_le.mp he, ?_⟩
              injection hdec.symm
            obtain ⟨hs, he, rfl⟩ := hsec
            exact ⟨p1, p2, tok, rfl, by simpa using hbear,
              by simpa using hitok, hs, he, by simpa using hfind⟩

/-- Closed instantiation of C6: a header whose scheme word is not "bearer"
is rejected with the malformed-header message. -/
theorem C6_auth_guard_witness :
    token_required S₀.interp db₀ "Token abc" 0
      = .err "Invalid or missing Authorization header" :=
  (C6_auth_guard S₀.interp db₀ "Token abc" 0).1 (by decide)

end MoonApp

namespace MoonApp

/-- C7: register returns 400 when the stripped username or the password is
empty/absent, 400 when an account with that username already exists, and
otherwise appends exactly one new account whose stored password column is the
hash function's output; once an account exists no later register call with
the same (stripped) username can succeed or change the store, and no
operation ever removes an account. -/
theorem C7_register :
    ∀ (hash : String → String) (db : DB) (raw pwd : String) (now : Int),
      (pyStrip raw = "" ∨ pwd = "" →
        register hash db raw pwd now
          = (.err 400 "Missing username or password", db))
      ∧ (∀ u, findUser db (pyStrip raw) = some u →
          ¬(pyStrip raw = "" ∨ pwd = "") →
          register hash db raw pwd now
            = (.err 400 "Username already exists", db))
      ∧ (¬(pyStrip raw = "" ∨ pwd = "") → findUser db (pyStrip raw) = none →
          register hash db raw pwd now
            = (.reg_ok, db ++ [{ username := pyStrip raw, password := hash pwd,
                                 created_at := now, last_login := none,
                                 calculations := 0 }])
          ∧ ∀ raw₂ pwd₂ now₂, pyStrip raw₂ = pyStrip raw →
              (register hash (register hash db raw pwd now).2 raw₂ pwd₂
                  now₂).1 ≠ .reg_ok
              ∧ (register hash (register hash db raw pwd now).2 raw₂ pwd₂
                  now₂).2 = (register hash db raw pwd now).2)
      ∧ ∀ (S : Sys) (db₂ : DB) (op : Op) (x : String),
          (findUser db₂ x).isSome → (findUser (step S db₂ op).2 x).isSome := by
  intro hash db raw pwd now
  refine ⟨?_, ?_, ?_, findUser_isSome_step⟩
  · intro h
    simp only [register, if_pos h]
  · intro u hu hc
    simp only [register, if_neg hc, hu, Option.isSome_some, if_true]
  · intro hc hnone
    have hreg : register hash db raw pwd now
        = (.reg_ok, db ++ [{ username := pyStrip raw, password := hash pwd,
                             created_at := now, last_login := none,
                             calculations := 0 }]) := by
      simp only [register, if_neg hc, hnone, Option.isSome_none,
        Bool.false_eq_true, if_false]
    refine ⟨hreg, ?_⟩
    intro raw₂ pwd₂ now₂ heq
    have hfind' : findUser
        (db ++ [{ username := pyStrip raw, password := hash pwd,
                  created_at := now, last_login := none, calculations := 0 }])
        (pyStrip raw₂)
        = some { username := pyStrip raw, password := hash pwd,
                 created_at := now, last_login := none,
                 calculations := 0 } := by
      rw [heq]
      simp only [findUser] at hnone ⊢
      rw [List.find?_append, hnone]
      simp
    by_cases hp2 : pyStrip raw₂ = "" ∨ pwd₂ = ""
    · rcases hp2 with hp2 | hp2
      · exfalso
        rw [heq] at hp2
        exact hc (Or.inl hp2)
      · constructor
        · simp [register, hp2]
        · simp [register, hp2]
    · constructor
      · rw [hreg]
        simp only [register, if_neg hp2, hfind', Option.isSome_some, if_true]
        simp
      · rw [hreg]
        simp only [register, if_neg hp2, hfind', Option.isSome_some, if_true]

/-- Closed instantiation of C7: registering the already-taken username
"alice" on `db₀` fails with the duplicate error and leaves the store
unchanged. -/
theorem C7_register_witness :
    register S₀.hash db₀ "alice" "pw9" 0
      = (.err 400 "Username already exists", db₀) :=
  (C7_register S₀.hash db₀ "alice" "pw9" 0).2.1
    { username := "alice", password := "pbkdf2:pw1", created_at := 0,
      last_login := none, calculations := 0 } (by decide) (by decide)

/-- C8 counterexample: the token issued by login is signed with
SECRET_KEY, and SECRET_KEY is the hardcoded constant "dev-key-123" shipped
in app.config — contradicting the claim that the signing secret is not a
hardcoded default constant shipped with the program. -/
theorem C8_counterexample :
    (login S₀.check db₀ "alice" "pw1" 0).1
      = .login_ok { username := "alice", exp := 86400,
                    secret := "dev-key-123" } "alice" 0 0
    ∧ SECRET_KEY = "dev-key-123" := by
  constructor
  · decide
  · rfl

/-- C8 (amended): every token issued by login carries exactly the payload
(username, exp) with exp equal to issuance time plus 24 hours and is
HS256-signed with the server's SECRET_KEY — which is the hardcoded constant
"dev-key-123". -/
theorem C8_login_token :
    ∀ (check : String → String → Bool) (db : DB) (raw pwd : String)
      (now : Int) (tok : Token) (un : String) (c : ℕ) (ll : Int),
      (login check db raw pwd now).1 = .login_ok tok un c ll →
      tok = { username := un, exp := now + TOKEN_LIFETIME,
              secret := SECRET_KEY }
      ∧ TOKEN_LIFETIME = 24 * 60 * 60 ∧ SECRET_KEY = "dev-key-123" := by
  intro check db raw pwd now tok un c ll h
  simp only [login] at h
  by_cases h1 : pyStrip raw = "" ∨ pwd = ""
  · rw [if_pos h1] at h
    simp at h
  · rw [if_neg h1] at h
    cases hfind : findUser db (pyStrip raw) with
    | none =>
      rw [hfind] at h
      simp at h
    | some usr =>
      rw [hfind] at h
      dsimp only at h
      by_cases h2 : check usr.password pwd = true
      · rw [if_pos h2] at h
        simp only [Resp.login_ok.injEq] at h
        obtain ⟨rfl, rfl, -, -⟩ := h
        exact ⟨rfl, rfl, rfl⟩
      · rw [if_neg h2] at h
        simp at h

/-- Closed instantiation of the amended C8 at alice's login on `db₀`. -/
theorem C8_login_token_witness :
    ({ username := "alice", exp := 86400, secret := "dev-key-123" } : Token)
      = { username := "alice", exp := 0 + TOKEN_LIFETIME,
          secret := SECRET_KEY }
    ∧ TOKEN_LIFETIME = 24 * 60 * 60 ∧ SECRET_KEY = "dev-key-123" :=
  C8_login_token S₀.check db₀ "alice" "pw1" 0
    { username := "alice", exp := 86400, secret := "dev-key-123" }
    "alice" 0 0 (by decide)

/-- C9: register and login strip surrounding whitespace from the username
but not the password: a whitespace-only username is rejected as missing, a
username with surrounding whitespace behaves exactly like its stripped form,
a whitespace-only password is accepted as non-empty at registration, and
login compares the password as supplied against the stored hash. -/
theorem C9_strip_semantics :
    ∀ (hash : String → String) (check : String → String → Bool) (db : DB)
      (raw pwd : String) (now : Int),
      (pyStrip raw = "" →
        register hash db raw pwd now
            = (.err 400 "Missing username or password", db)
        ∧ login check db raw pwd now
            = (.err 400 "Missing username or password", db))
      ∧ (∀ raw₂, pyStrip raw = pyStrip raw₂ →
          register hash db raw pwd now = register hash db raw₂ pwd now
          ∧ login check db raw pwd now = login check db raw₂ pwd now)
      ∧ (pwd ≠ "" → pyStrip raw ≠ "" → findUser db (pyStrip raw) = none →
          (register hash db raw pwd now).1 = .reg_ok)
      ∧ ∀ u, pwd ≠ "" → pyStrip raw ≠ "" →
          findUser db (pyStrip raw) = some u →
          (check u.password pwd = true →
            login check db raw pwd now
              = (.login_ok { username := u.username,
                             exp := now + TOKEN_LIFETIME,
                             secret := SECRET_KEY }
                   u.username u.calculations now,
                 db.map (fun v => if v.username == pyStrip raw
                    then { u with last_login := some now } else v)))
          ∧ (check u.password pwd = false →
            login check db raw pwd now
              = (.err 401 "Invalid credentials", db)) := by
  intro hash check db raw pwd now
  refine ⟨?_, ?_, ?_, ?_⟩
  · intro h
    constructor
    · simp [register, h]
    · simp [login, h]
  · intro raw₂ h
    constructor
    · simp only [register, h]
    · simp only [login, h]
  · intro hp hr hnone
    have hc : ¬(pyStrip raw = "" ∨ pwd = "") := by tauto
    simp only [register, if_neg hc, hnone, Option.isSome_none,
      Bool.false_eq_true, if_false]
  · intro u hp hr hu
    have hc : ¬(pyStrip raw = "" ∨ pwd = "") := by tauto
    constructor
    · intro hchk
      simp only [login, if_neg hc, hu]
      rw [hchk]
      simp
    · intro hchk
      simp only [login, if_neg hc, hu]
      rw [hchk]
      simp

/-- Closed instantiation of C9: the whitespace-only password " " is accepted
as non-empty when registering the fresh username "bob". -/
theorem C9_strip_semantics_witness :
    (register S₀.hash db₀ "bob" " " 0).1 = .reg_ok :=
  (C9_strip_semantics S₀.hash S₀.check db₀ "bob" " " 0).2.2.1
    (by decide) (by decide) (by decide)

/-- C10: get_phase_name_from_age is total — every rational input yields one
of the eight labels — and every input below SYNODIC_MONTH * 1/8, in
particular every negative input, satisfies the first comparison and yields
"New Moon". -/
theorem C10_total_negative :
    (∀ age : ℚ, get_phase_name_from_age age ∈ phaseLabels)
    ∧ (∀ age : ℚ, age < SYNODIC_MONTH * 1/8 →
        get_phase_name_from_age age = "New Moon")
    ∧ ∀ age : ℚ, age < 0 → get_phase_name_from_age age = "New Moon" := by
  refine ⟨fun age => ?_, fun age h => ?_, fun age h => ?_⟩
  · simp only [get_phase_name_from_age]
    split_ifs <;> simp [phaseLabels]
  · have h' : age < SYNODIC_MONTH / 8 := by linarith
    simp [get_phase_name_from_age, h']
  · have h' : age < SYNODIC_MONTH / 8 := by
      have : (0:ℚ) < SYNODIC_MONTH / 8 := by norm_num [SYNODIC_MONTH]
      linarith
    simp [get_phase_name_from_age, h']

/-- Closed instantiation of C10 at age -5 days. -/
theorem C10_total_negative_witness :
    get_phase_name_from_age (-5) = "New Moon" :=
  C10_total_negative.2.2 (-5) (by norm_num)

end MoonApp
